import Mathlib

/-!
# SimpleEQ: the cut-filter slope policy of `PluginProcessor.h`

A shallow embedding of the data declared in `Source/PluginProcessor.h`
(`Slope`, `ChainSettings`, the `Filter` / `CutFilter` processor chain) and of the
member template `SimpleEQAudioProcessor::updateCutFilter`, followed by the
properties of the update that the specification states.

Modelling conventions.
* `Slope` is the four-enumerator C++ enum; `Slope.toNat` is the enumerator value.
  A slope is always one of the four enumerators (no out-of-range cast of an integer).
* A `Filter` is the pair of the coefficient object it owns and its running delay
  registers.  Coefficient sets and delay registers are library types; they are
  type parameters `Coef` and `St` of the development.
* A `CutFilter` is `ProcessorChain<Filter, Filter, Filter, Filter>`: four
  processors and one bypass flag per processor.
* `cutCoefficients[0]` is an array read that has no defined result on an empty
  array; the read is `List` indexing into `Option`, and `updateCutFilter`
  returns `none` when a read fails.
* The `float` fields of `ChainSettings` carry the exactly representable
  initialisers `0` and `1.f`; they are modelled over `ℚ`.
-/

namespace SimpleEQ

/-! ## Data model -/

/-- Slope choice of a cut band: the enum of the header, enumerators in declaration order. -/
inductive Slope where
  | Slope_12
  | Slope_24
  | Slope_36
  | Slope_48
  deriving DecidableEq

/-- Enumerator value of a slope: C++ numbers the enumerators 0, 1, 2, 3 in declaration order. -/
def Slope.toNat : Slope → Nat
  | Slope.Slope_12 => 0
  | Slope.Slope_24 => 1
  | Slope.Slope_36 => 2
  | Slope.Slope_48 => 3

/-- Filter order of a cut band, as the comment in the body of updateCutFilter gives it:
"calculate order from slope choice: (slope choice + 1) * 2". -/
def cutOrder (s : Slope) : Nat :=
  (s.toNat + 1) * 2

/-- One IIR stage: the coefficient object it owns and its running delay registers. -/
structure Filter (Coef St : Type) where
  coefficients : Coef
  state : St
  deriving DecidableEq

/-- The chain of four stages of a cut band, with the bypass flag of each stage. -/
structure CutFilter (Coef St : Type) where
  p0 : Filter Coef St
  p1 : Filter Coef St
  p2 : Filter Coef St
  p3 : Filter Coef St
  b0 : Bool
  b1 : Bool
  b2 : Bool
  b3 : Bool
  deriving DecidableEq

namespace CutFilter

variable {Coef St : Type}

/-- Stage number i of the chain: the accessor get<i>(). -/
def get (c : CutFilter Coef St) (i : Fin 4) : Filter Coef St :=
  match i.val with
  | 0 => c.p0
  | 1 => c.p1
  | 2 => c.p2
  | _ => c.p3

/-- Bypass flag of stage i: the accessor isBypassed<i>(). -/
def isBypassed (c : CutFilter Coef St) (i : Fin 4) : Bool :=
  match i.val with
  | 0 => c.b0
  | 1 => c.b1
  | 2 => c.b2
  | _ => c.b3

/-- Set the bypass flag of stage i: setBypassed<i>(b). Nothing else changes. -/
def setBypassed (c : CutFilter Coef St) (i : Fin 4) (b : Bool) : CutFilter Coef St :=
  match i.val with
  | 0 => { c with b0 := b }
  | 1 => { c with b1 := b }
  | 2 => { c with b2 := b }
  | _ => { c with b3 := b }

/-- The assignment `*c.get<i>().coefficients = x`: the coefficient object of stage i is
overwritten by value; the delay registers of the stage and the other stages are untouched. -/
def assignCoefficients (c : CutFilter Coef St) (i : Fin 4) (x : Coef) : CutFilter Coef St :=
  match i.val with
  | 0 => { c with p0 := { c.p0 with coefficients := x } }
  | 1 => { c with p1 := { c.p1 with coefficients := x } }
  | 2 => { c with p2 := { c.p2 with coefficients := x } }
  | _ => { c with p3 := { c.p3 with coefficients := x } }

/-- Number of stages of the chain that are not bypassed. -/
def enabledCount (c : CutFilter Coef St) : Nat :=
  ((List.finRange 4).filter (fun i => !c.isBypassed i)).length

end CutFilter

/-! ## The update -/

variable {Coef St : Type}

/-- The member template updateCutFilter: bypass all four stages, then, by the slope,
copy `cutCoefficients[0]` into the leading stages and clear their bypass flags.
Every `*cutCoefficients[0]` of the source is one array read. -/
def updateCutFilter (leftLowCut : CutFilter Coef St) (cutCoefficients : List Coef)
    (lowCutSlope : Slope) : Option (CutFilter Coef St) :=
  let c := leftLowCut.setBypassed 0 true
  let c := c.setBypassed 1 true
  let c := c.setBypassed 2 true
  let c := c.setBypassed 3 true
  match lowCutSlope with
  | Slope.Slope_12 => do
    let c := c.assignCoefficients 0 (← cutCoefficients[0]?)
    let c := c.setBypassed 0 false
    pure c
  | Slope.Slope_24 => do
    let c := c.assignCoefficients 0 (← cutCoefficients[0]?)
    let c := c.setBypassed 0 false
    let c := c.assignCoefficients 1 (← cutCoefficients[0]?)
    let c := c.setBypassed 1 false
    pure c
  | Slope.Slope_36 => do
    let c := c.assignCoefficients 0 (← cutCoefficients[0]?)
    let c := c.setBypassed 0 false
    let c := c.assignCoefficients 1 (← cutCoefficients[0]?)
    let c := c.setBypassed 1 false
    let c := c.assignCoefficients 2 (← cutCoefficients[0]?)
    let c := c.setBypassed 2 false
    pure c
  | Slope.Slope_48 => do
    let c := c.assignCoefficients 0 (← cutCoefficients[0]?)
    let c := c.setBypassed 0 false
    let c := c.assignCoefficients 1 (← cutCoefficients[0]?)
    let c := c.setBypassed 1 false
    let c := c.assignCoefficients 2 (← cutCoefficients[0]?)
    let c := c.setBypassed 2 false
    let c := c.assignCoefficients 3 (← cutCoefficients[0]?)
    let c := c.setBypassed 3 false
    pure c

/-! ## Sample inputs -/

/-- A chain whose stages hold the coefficient sets 10, 11, 12, 13 and delay registers
20, 21, 22, 23, with stages 1 and 3 bypassed. -/
def sampleChain : CutFilter Nat Nat :=
  { p0 := ⟨10, 20⟩, p1 := ⟨11, 21⟩, p2 := ⟨12, 22⟩, p3 := ⟨13, 23⟩,
    b0 := false, b1 := true, b2 := false, b3 := true }

/-- A second chain, differing from the sample chain in every field. -/
def otherChain : CutFilter Nat Nat :=
  { p0 := ⟨30, 40⟩, p1 := ⟨31, 41⟩, p2 := ⟨32, 42⟩, p3 := ⟨33, 43⟩,
    b0 := true, b1 := false, b2 := true, b3 := false }

/-! ## Basic facts about the update -/

/-- Trace on the sample chain: two sections, Slope_24. Stages 0 and 1 take the first
section and are enabled, stages 2 and 3 are bypassed and keep 12 and 13. -/
theorem updateCutFilter_sample_24 :
    updateCutFilter sampleChain [7, 8] Slope.Slope_24 =
      some { p0 := ⟨7, 20⟩, p1 := ⟨7, 21⟩, p2 := ⟨12, 22⟩, p3 := ⟨13, 23⟩,
             b0 := false, b1 := false, b2 := true, b3 := true } := by
  decide

/-- Trace on the sample chain: the empty array, on which the first read fails. -/
theorem updateCutFilter_sample_empty :
    updateCutFilter sampleChain [] Slope.Slope_24 = none := by
  decide

/-- On an empty coefficient array the first read fails, for every slope. -/
theorem updateCutFilter_nil (c : CutFilter Coef St) (s : Slope) :
    updateCutFilter c [] s = none := by
  cases s <;> rfl

/-- On a non-empty array the update returns, and the result is the explicit chain. -/
theorem updateCutFilter_cons (c : CutFilter Coef St) (a : Coef) (t : List Coef) (s : Slope) :
    updateCutFilter c (a :: t) s = some
      { p0 := { c.p0 with coefficients := a }
        p1 := if 1 ≤ s.toNat then { c.p1 with coefficients := a } else c.p1
        p2 := if 2 ≤ s.toNat then { c.p2 with coefficients := a } else c.p2
        p3 := if 3 ≤ s.toNat then { c.p3 with coefficients := a } else c.p3
        b0 := false
        b1 := decide (s.toNat < 1)
        b2 := decide (s.toNat < 2)
        b3 := decide (s.toNat < 3) } := by
  cases s <;>
    simp [updateCutFilter, CutFilter.setBypassed, CutFilter.assignCoefficients, Slope.toNat]

/-- The update fails exactly on the empty coefficient array. -/
theorem updateCutFilter_eq_none_iff (c : CutFilter Coef St) (cs : List Coef) (s : Slope) :
    updateCutFilter c cs s = none ↔ cs = [] := by
  cases cs with
  | nil => simp [updateCutFilter_nil]
  | cons a t => simp [updateCutFilter_cons]

/-- The number of enabled stages, as a sum over the four flags. -/
theorem enabledCount_eq (c : CutFilter Coef St) :
    c.enabledCount = (if c.b0 then 0 else 1) + (if c.b1 then 0 else 1)
      + (if c.b2 then 0 else 1) + (if c.b3 then 0 else 1) := by
  obtain ⟨p0, p1, p2, p3, b0, b1, b2, b3⟩ := c
  cases b0 <;> cases b1 <;> cases b2 <;> cases b3 <;> rfl

/-- Stage-wise description of the result on a non-empty array: the flag of stage i says
whether i is past the enabled leading stages, the coefficients of an enabled stage are the first
section and those of the other stages are the old ones, and the delay registers are the
old ones. -/
theorem updateCutFilter_stages (c : CutFilter Coef St) (a : Coef) (t : List Coef) (s : Slope) :
    ∃ c2, updateCutFilter c (a :: t) s = some c2 ∧
      (∀ i : Fin 4, c2.isBypassed i = decide (s.toNat + 1 ≤ i.val)) ∧
      (∀ i : Fin 4, (c2.get i).coefficients =
        if i.val < s.toNat + 1 then a else (c.get i).coefficients) ∧
      (∀ i : Fin 4, (c2.get i).state = (c.get i).state) := by
  refine ⟨_, updateCutFilter_cons c a t s, ?_, ?_, ?_⟩ <;> intro i <;>
    cases s <;> fin_cases i <;> simp [CutFilter.isBypassed, CutFilter.get, Slope.toNat]

/-! ## The slope policy -/

/-- C1: after the update on a non-empty coefficient array, stage i is non-bypassed exactly
when i < k + 1, with k the enumerator value of the slope; so exactly k + 1 stages are enabled
(1 for Slope_12, 4 for Slope_48), they are the leading ones, and every stage at index
k + 1 or more is bypassed, whatever the bypass flags were before the call. -/
theorem updateCutFilter_enabled_iff (c : CutFilter Coef St) (cs : List Coef) (s : Slope)
    (h : cs ≠ []) :
    ∃ c2, updateCutFilter c cs s = some c2 ∧
      (∀ i : Fin 4, c2.isBypassed i = false ↔ i.val < s.toNat + 1) ∧
      c2.enabledCount = s.toNat + 1 ∧
      (∀ i : Fin 4, s.toNat + 1 ≤ i.val → c2.isBypassed i = true) ∧
      Slope.Slope_12.toNat + 1 = 1 ∧ Slope.Slope_48.toNat + 1 = 4 := by
  obtain ⟨a, t, rfl⟩ := List.exists_cons_of_ne_nil h
  refine ⟨_, updateCutFilter_cons c a t s, ?_, ?_, ?_, rfl, rfl⟩
  · intro i
    cases s <;> fin_cases i <;> simp [CutFilter.isBypassed, Slope.toNat]
  · cases s <;> simp [enabledCount_eq, Slope.toNat]
  · intro i
    cases s <;> fin_cases i <;> simp [CutFilter.isBypassed, Slope.toNat]

/-- Witness of C1 on the sample chain, with two sections and Slope_24. -/
theorem updateCutFilter_enabled_iff_witness :
    ([7, 8] : List Nat) ≠ [] ∧
    ∃ c2, updateCutFilter sampleChain [7, 8] Slope.Slope_24 = some c2 ∧
      (∀ i : Fin 4, c2.isBypassed i = false ↔ i.val < Slope.Slope_24.toNat + 1) ∧
      c2.enabledCount = Slope.Slope_24.toNat + 1 ∧
      (∀ i : Fin 4, Slope.Slope_24.toNat + 1 ≤ i.val → c2.isBypassed i = true) ∧
      Slope.Slope_12.toNat + 1 = 1 ∧ Slope.Slope_48.toNat + 1 = 4 :=
  ⟨by decide, updateCutFilter_enabled_iff sampleChain [7, 8] Slope.Slope_24 (by decide)⟩

/-- C2, as stated, at the sample chain with the array [7, 7] and Slope_24: the update returns
the chain below, whose stage 1 is enabled and holds 7, which is the section at index 1 of the
array; so "no enabled stage i > 0 holds cs[i]" fails there. -/
theorem updateCutFilter_holds_equal_section :
    updateCutFilter sampleChain [7, 7] Slope.Slope_24 =
      some { p0 := ⟨7, 20⟩, p1 := ⟨7, 21⟩, p2 := ⟨12, 22⟩, p3 := ⟨13, 23⟩,
             b0 := false, b1 := false, b2 := true, b3 := true } ∧
    (⟨⟨7, 20⟩, ⟨7, 21⟩, ⟨12, 22⟩, ⟨13, 23⟩, false, false, true, true⟩ :
      CutFilter Nat Nat).isBypassed 1 = false ∧
    ([7, 7] : List Nat)[1]? = some 7 ∧
    ((⟨⟨7, 20⟩, ⟨7, 21⟩, ⟨12, 22⟩, ⟨13, 23⟩, false, false, true, true⟩ :
      CutFilter Nat Nat).get 1).coefficients = 7 ∧
    ¬ (∃ c2, updateCutFilter sampleChain [7, 7] Slope.Slope_24 = some c2 ∧
        (∀ i : Fin 4, c2.isBypassed i = false → (c2.get i).coefficients = 7) ∧
        (∀ i : Fin 4, 0 < i.val → c2.isBypassed i = false →
          ∀ y, ([7, 7] : List Nat)[i.val]? = some y → (c2.get i).coefficients ≠ y)) := by
  have hrun : updateCutFilter sampleChain [7, 7] Slope.Slope_24 =
      some { p0 := ⟨7, 20⟩, p1 := ⟨7, 21⟩, p2 := ⟨12, 22⟩, p3 := ⟨13, 23⟩,
             b0 := false, b1 := false, b2 := true, b3 := true } := by decide
  refine ⟨hrun, by decide, by decide, by decide, ?_⟩
  rintro ⟨c2, hc2, _, hno⟩
  rw [hrun] at hc2
  obtain rfl := Option.some.inj hc2
  exact hno 1 (by decide) (by decide) 7 (by decide) (by decide)

/-- C2, amended: after the update on a non-empty coefficient array, every enabled stage
holds the first section cs[0]; an enabled stage i > 0 holds the section cs[i] exactly when
cs[i] equals cs[0]; and the result is the same for every array with the same first section,
so the later sections never influence the chain. -/
theorem updateCutFilter_first_section (c : CutFilter Coef St) (cs : List Coef) (s : Slope)
    (h : cs ≠ []) :
    ∃ c2 x, cs[0]? = some x ∧ updateCutFilter c cs s = some c2 ∧
      (∀ i : Fin 4, c2.isBypassed i = false → (c2.get i).coefficients = x) ∧
      (∀ i : Fin 4, 0 < i.val → c2.isBypassed i = false →
        ∀ y, cs[i.val]? = some y → ((c2.get i).coefficients = y ↔ y = x)) ∧
      (∀ cs2 : List Coef, cs2[0]? = some x → updateCutFilter c cs2 s = some c2) := by
  obtain ⟨a, t, rfl⟩ := List.exists_cons_of_ne_nil h
  obtain ⟨c2, hc2, hb, hco, _⟩ := updateCutFilter_stages c a t s
  have key : ∀ i : Fin 4, c2.isBypassed i = false → (c2.get i).coefficients = a := by
    intro i hi
    rw [hb i] at hi
    rw [hco i, if_pos (by simpa using hi)]
  refine ⟨c2, a, by simp, hc2, key, ?_, ?_⟩
  · intro i _ hi y _
    rw [key i hi]
    exact eq_comm
  · intro cs2 h2
    cases cs2 with
    | nil => simp at h2
    | cons b u =>
      simp at h2
      subst h2
      rw [← hc2, updateCutFilter_cons, updateCutFilter_cons]

/-- Witness of C2, amended, on the sample chain, with the sections 7, 8, 7, 6 and Slope_48:
stage 2 holds the section at index 2, which equals the first, stages 1 and 3 do not hold
theirs. -/
theorem updateCutFilter_first_section_witness :
    ([7, 8, 7, 6] : List Nat) ≠ [] ∧
    ∃ c2 x, ([7, 8, 7, 6] : List Nat)[0]? = some x ∧
      updateCutFilter sampleChain [7, 8, 7, 6] Slope.Slope_48 = some c2 ∧
      (∀ i : Fin 4, c2.isBypassed i = false → (c2.get i).coefficients = x) ∧
      (∀ i : Fin 4, 0 < i.val → c2.isBypassed i = false →
        ∀ y, ([7, 8, 7, 6] : List Nat)[i.val]? = some y →
          ((c2.get i).coefficients = y ↔ y = x)) ∧
      (∀ cs2 : List Nat, cs2[0]? = some x →
        updateCutFilter sampleChain cs2 Slope.Slope_48 = some c2) :=
  ⟨by decide, updateCutFilter_first_section sampleChain [7, 8, 7, 6] Slope.Slope_48 (by decide)⟩

/-! ## Frame properties -/

/-- C3: the update returns on every non-empty coefficient array (and only there), and
whenever it returns, every stage at index k + 1 or more, with k the enumerator value of the
slope, keeps the coefficient set it had before the call and is bypassed. -/
theorem updateCutFilter_stale_coefficients (c : CutFilter Coef St) (cs : List Coef) (s : Slope) :
    (cs ≠ [] → ∃ c2, updateCutFilter c cs s = some c2) ∧
    (∀ c2, updateCutFilter c cs s = some c2 → cs ≠ [] ∧
      ∀ i : Fin 4, s.toNat + 1 ≤ i.val →
        (c2.get i).coefficients = (c.get i).coefficients ∧ c2.isBypassed i = true) := by
  cases cs with
  | nil => simp [updateCutFilter_nil]
  | cons a t =>
    obtain ⟨c2, hc2, hb, hco, _⟩ := updateCutFilter_stages c a t s
    refine ⟨fun _ => ⟨c2, hc2⟩, ?_⟩
    intro c3 hc3
    obtain rfl : c2 = c3 := Option.some.inj (hc2.symm.trans hc3)
    refine ⟨by simp, fun i hi => ⟨?_, ?_⟩⟩
    · rw [hco i, if_neg (by omega)]
    · rw [hb i]
      simpa using hi

/-- Witness of C3: with Slope_24 on the sample chain, stages 2 and 3 keep the coefficient
sets 12 and 13. -/
theorem updateCutFilter_stale_coefficients_witness :
    updateCutFilter sampleChain [7, 8] Slope.Slope_24 =
      some { p0 := ⟨7, 20⟩, p1 := ⟨7, 21⟩, p2 := ⟨12, 22⟩, p3 := ⟨13, 23⟩,
             b0 := false, b1 := false, b2 := true, b3 := true } ∧
    ([7, 8] : List Nat) ≠ [] ∧
    ∀ i : Fin 4, Slope.Slope_24.toNat + 1 ≤ i.val →
      ((⟨⟨7, 20⟩, ⟨7, 21⟩, ⟨12, 22⟩, ⟨13, 23⟩, false, false, true, true⟩ :
          CutFilter Nat Nat).get i).coefficients = (sampleChain.get i).coefficients ∧
      (⟨⟨7, 20⟩, ⟨7, 21⟩, ⟨12, 22⟩, ⟨13, 23⟩, false, false, true, true⟩ :
          CutFilter Nat Nat).isBypassed i = true :=
  ⟨by decide,
    (updateCutFilter_stale_coefficients sampleChain [7, 8] Slope.Slope_24).2 _ (by decide)⟩

/-- C4: the update returns on every non-empty coefficient array, and whenever it returns,
the delay registers of each of the four stages are those of the chain before the call: the
update writes coefficients and bypass flags only. -/
theorem updateCutFilter_keeps_state (c : CutFilter Coef St) (cs : List Coef) (s : Slope) :
    (cs ≠ [] → ∃ c2, updateCutFilter c cs s = some c2) ∧
    (∀ c2, updateCutFilter c cs s = some c2 →
      ∀ i : Fin 4, (c2.get i).state = (c.get i).state) := by
  cases cs with
  | nil => simp [updateCutFilter_nil]
  | cons a t =>
    obtain ⟨c2, hc2, _, _, hst⟩ := updateCutFilter_stages c a t s
    refine ⟨fun _ => ⟨c2, hc2⟩, ?_⟩
    intro c3 hc3
    obtain rfl : c2 = c3 := Option.some.inj (hc2.symm.trans hc3)
    exact hst

/-- Witness of C4: with Slope_48 every stage of the sample chain gets new coefficients and
keeps its delay registers 20, 21, 22, 23. -/
theorem updateCutFilter_keeps_state_witness :
    updateCutFilter sampleChain [7] Slope.Slope_48 =
      some { p0 := ⟨7, 20⟩, p1 := ⟨7, 21⟩, p2 := ⟨7, 22⟩, p3 := ⟨7, 23⟩,
             b0 := false, b1 := false, b2 := false, b3 := false } ∧
    ∀ i : Fin 4,
      ((⟨⟨7, 20⟩, ⟨7, 21⟩, ⟨7, 22⟩, ⟨7, 23⟩, false, false, false, false⟩ :
          CutFilter Nat Nat).get i).state = (sampleChain.get i).state :=
  ⟨by decide, (updateCutFilter_keeps_state sampleChain [7] Slope.Slope_48).2 _ (by decide)⟩

/-! ## Sequences of updates -/

/-- C5: from any chain, the three updates with Slope_48, then Slope_12, then Slope_48, each
on a non-empty coefficient array, all return; afterwards exactly four stages are enabled and
each of the four holds the first section of the last array, so no stage holds a first
section of an earlier array that differs from it. -/
theorem updateCutFilter_reenable (c : CutFilter Coef St) (cs1 cs2 cs3 : List Coef)
    (h1 : cs1 ≠ []) (h2 : cs2 ≠ []) (h3 : cs3 ≠ []) :
    ∃ c1 c2 c3 x,
      updateCutFilter c cs1 Slope.Slope_48 = some c1 ∧
      updateCutFilter c1 cs2 Slope.Slope_12 = some c2 ∧
      updateCutFilter c2 cs3 Slope.Slope_48 = some c3 ∧
      cs3[0]? = some x ∧
      c3.enabledCount = 4 ∧
      (∀ i : Fin 4, c3.isBypassed i = false) ∧
      (∀ i : Fin 4, (c3.get i).coefficients = x) ∧
      (∀ (i : Fin 4) (y : Coef), cs1[0]? = some y ∨ cs2[0]? = some y → y ≠ x →
        (c3.get i).coefficients ≠ y) := by
  obtain ⟨a1, t1, rfl⟩ := List.exists_cons_of_ne_nil h1
  obtain ⟨a2, t2, rfl⟩ := List.exists_cons_of_ne_nil h2
  obtain ⟨a3, t3, rfl⟩ := List.exists_cons_of_ne_nil h3
  obtain ⟨c1, hc1, _, _, _⟩ := updateCutFilter_stages c a1 t1 Slope.Slope_48
  obtain ⟨c2, hc2, _, _, _⟩ := updateCutFilter_stages c1 a2 t2 Slope.Slope_12
  obtain ⟨c3, hc3, hb, hco, _⟩ := updateCutFilter_stages c2 a3 t3 Slope.Slope_48
  have hflag : ∀ i : Fin 4, c3.isBypassed i = false := by
    intro i
    rw [hb i]
    have := i.isLt
    simp [Slope.toNat]
  have hcoef : ∀ i : Fin 4, (c3.get i).coefficients = a3 := by
    intro i
    rw [hco i, if_pos (by have := i.isLt; simp [Slope.toNat])]
  refine ⟨c1, c2, c3, a3, hc1, hc2, hc3, by simp, ?_, hflag, hcoef, ?_⟩
  · have e0 := hflag 0
    have e1 := hflag 1
    have e2 := hflag 2
    have e3 := hflag 3
    simp [CutFilter.isBypassed] at e0 e1 e2 e3
    simp [enabledCount_eq, e0, e1, e2, e3]
  · intro i y _ hy hc
    exact hy ((hcoef i).symm.trans hc).symm

/-- Witness of C5 on the sample chain with the arrays [1, 2, 3, 4], [5] and [6, 7, 8, 9]. -/
theorem updateCutFilter_reenable_witness :
    ([1, 2, 3, 4] : List Nat) ≠ [] ∧ ([5] : List Nat) ≠ [] ∧ ([6, 7, 8, 9] : List Nat) ≠ [] ∧
    ∃ c1 c2 c3 x,
      updateCutFilter sampleChain [1, 2, 3, 4] Slope.Slope_48 = some c1 ∧
      updateCutFilter c1 [5] Slope.Slope_12 = some c2 ∧
      updateCutFilter c2 [6, 7, 8, 9] Slope.Slope_48 = some c3 ∧
      ([6, 7, 8, 9] : List Nat)[0]? = some x ∧
      c3.enabledCount = 4 ∧
      (∀ i : Fin 4, c3.isBypassed i = false) ∧
      (∀ i : Fin 4, (c3.get i).coefficients = x) ∧
      (∀ (i : Fin 4) (y : Nat),
        ([1, 2, 3, 4] : List Nat)[0]? = some y ∨ ([5] : List Nat)[0]? = some y → y ≠ x →
        (c3.get i).coefficients ≠ y) :=
  ⟨by decide, by decide, by decide,
    updateCutFilter_reenable sampleChain [1, 2, 3, 4] [5] [6, 7, 8, 9]
      (by decide) (by decide) (by decide)⟩

/-- C6: on a non-empty coefficient array the update returns a chain on which the same update
returns that very chain again, so all coefficient sets and bypass flags agree stage by
stage; as an equation between results, the update followed by itself is the update. -/
theorem updateCutFilter_idempotent (c : CutFilter Coef St) (cs : List Coef) (s : Slope)
    (h : cs ≠ []) :
    (∃ c2, updateCutFilter c cs s = some c2 ∧ updateCutFilter c2 cs s = some c2 ∧
      ∀ c3, updateCutFilter c2 cs s = some c3 → ∀ i : Fin 4,
        (c3.get i).coefficients = (c2.get i).coefficients ∧
        c3.isBypassed i = c2.isBypassed i) ∧
    (updateCutFilter c cs s).bind (fun c2 => updateCutFilter c2 cs s) =
      updateCutFilter c cs s := by
  obtain ⟨a, t, rfl⟩ := List.exists_cons_of_ne_nil h
  have twice : updateCutFilter
      ({ p0 := { c.p0 with coefficients := a }
         p1 := if 1 ≤ s.toNat then { c.p1 with coefficients := a } else c.p1
         p2 := if 2 ≤ s.toNat then { c.p2 with coefficients := a } else c.p2
         p3 := if 3 ≤ s.toNat then { c.p3 with coefficients := a } else c.p3
         b0 := false
         b1 := decide (s.toNat < 1)
         b2 := decide (s.toNat < 2)
         b3 := decide (s.toNat < 3) } : CutFilter Coef St) (a :: t) s =
      updateCutFilter c (a :: t) s := by
    rw [updateCutFilter_cons, updateCutFilter_cons]
    cases s <;> simp [Slope.toNat]
  refine ⟨⟨_, updateCutFilter_cons c a t s, ?_, ?_⟩, ?_⟩
  · rw [twice, updateCutFilter_cons]
  · intro c3 hc3 i
    rw [twice, updateCutFilter_cons] at hc3
    rw [← Option.some.inj hc3]
    exact ⟨rfl, rfl⟩
  · rw [updateCutFilter_cons c a t s, Option.some_bind, twice, updateCutFilter_cons]

/-- Witness of C6 on the sample chain, with two sections and Slope_36. -/
theorem updateCutFilter_idempotent_witness :
    ([7, 8] : List Nat) ≠ [] ∧
    ((∃ c2, updateCutFilter sampleChain [7, 8] Slope.Slope_36 = some c2 ∧
      updateCutFilter c2 [7, 8] Slope.Slope_36 = some c2 ∧
      ∀ c3, updateCutFilter c2 [7, 8] Slope.Slope_36 = some c3 → ∀ i : Fin 4,
        (c3.get i).coefficients = (c2.get i).coefficients ∧
        c3.isBypassed i = c2.isBypassed i) ∧
    (updateCutFilter sampleChain [7, 8] Slope.Slope_36).bind
        (fun c2 => updateCutFilter c2 [7, 8] Slope.Slope_36) =
      updateCutFilter sampleChain [7, 8] Slope.Slope_36) :=
  ⟨by decide, updateCutFilter_idempotent sampleChain [7, 8] Slope.Slope_36 (by decide)⟩

/-! ## Two channels -/

/-- C9: for two arbitrary chains, the updates with one non-empty coefficient array and one
slope both return; the results have the same bypass flag in every stage and the same
coefficient set in every enabled stage; a stage whose coefficient sets differ between the
two results is a bypassed stage past the enabled leading stages, holding in each result the stale
coefficients of the respective chain before the call. -/
theorem updateCutFilter_channels_agree (cL cR : CutFilter Coef St) (cs : List Coef) (s : Slope)
    (h : cs ≠ []) :
    ∃ cL2 cR2, updateCutFilter cL cs s = some cL2 ∧ updateCutFilter cR cs s = some cR2 ∧
      (∀ i : Fin 4, cL2.isBypassed i = cR2.isBypassed i) ∧
      (∀ i : Fin 4, cL2.isBypassed i = false →
        (cL2.get i).coefficients = (cR2.get i).coefficients) ∧
      (∀ i : Fin 4, (cL2.get i).coefficients ≠ (cR2.get i).coefficients →
        s.toNat + 1 ≤ i.val ∧ cL2.isBypassed i = true ∧ cR2.isBypassed i = true ∧
        (cL2.get i).coefficients = (cL.get i).coefficients ∧
        (cR2.get i).coefficients = (cR.get i).coefficients) := by
  obtain ⟨a, t, rfl⟩ := List.exists_cons_of_ne_nil h
  obtain ⟨cL2, hL, hbL, hcoL, _⟩ := updateCutFilter_stages cL a t s
  obtain ⟨cR2, hR, hbR, hcoR, _⟩ := updateCutFilter_stages cR a t s
  refine ⟨cL2, cR2, hL, hR, ?_, ?_, ?_⟩
  · intro i
    rw [hbL i, hbR i]
  · intro i hi
    rw [hbL i] at hi
    have hlt : i.val < s.toNat + 1 := by simpa using hi
    rw [hcoL i, hcoR i, if_pos hlt, if_pos hlt]
  · intro i hne
    have hge : s.toNat + 1 ≤ i.val := by
      by_contra hlt
      have hlt2 : i.val < s.toNat + 1 := by omega
      apply hne
      rw [hcoL i, hcoR i, if_pos hlt2, if_pos hlt2]
    refine ⟨hge, ?_, ?_, ?_, ?_⟩
    · rw [hbL i]; simpa using hge
    · rw [hbR i]; simpa using hge
    · rw [hcoL i, if_neg (by omega)]
    · rw [hcoR i, if_neg (by omega)]

/-- Witness of C9 on the two sample chains, with two sections and Slope_24. -/
theorem updateCutFilter_channels_agree_witness :
    ([7, 8] : List Nat) ≠ [] ∧
    ∃ cL2 cR2, updateCutFilter sampleChain [7, 8] Slope.Slope_24 = some cL2 ∧
      updateCutFilter otherChain [7, 8] Slope.Slope_24 = some cR2 ∧
      (∀ i : Fin 4, cL2.isBypassed i = cR2.isBypassed i) ∧
      (∀ i : Fin 4, cL2.isBypassed i = false →
        (cL2.get i).coefficients = (cR2.get i).coefficients) ∧
      (∀ i : Fin 4, (cL2.get i).coefficients ≠ (cR2.get i).coefficients →
        Slope.Slope_24.toNat + 1 ≤ i.val ∧ cL2.isBypassed i = true ∧
        cR2.isBypassed i = true ∧
        (cL2.get i).coefficients = (sampleChain.get i).coefficients ∧
        (cR2.get i).coefficients = (otherChain.get i).coefficients) :=
  ⟨by decide,
    updateCutFilter_channels_agree sampleChain otherChain [7, 8] Slope.Slope_24 (by decide)⟩

/-! ## The slope enumeration -/

/-- C7: the enumeration has exactly the four values Slope_12, Slope_24, Slope_36, Slope_48,
with enumerator values 0, 1, 2, 3; the order (value + 1) * 2 maps the slopes bijectively onto
the set of 2, 4, 6, 8; the number of stages the update leaves enabled, on any chain and any
non-empty coefficient array, maps the slopes bijectively onto the set of 1, 2, 3, 4, and it
is value + 1, which is half the order. -/
theorem slope_order_count_bijective (c : CutFilter Coef St) (cs : List Coef) (h : cs ≠ []) :
    (∀ s : Slope, s = Slope.Slope_12 ∨ s = Slope.Slope_24 ∨ s = Slope.Slope_36 ∨
      s = Slope.Slope_48) ∧
    Slope.Slope_12.toNat = 0 ∧ Slope.Slope_24.toNat = 1 ∧ Slope.Slope_36.toNat = 2 ∧
    Slope.Slope_48.toNat = 3 ∧
    Set.BijOn cutOrder Set.univ {2, 4, 6, 8} ∧
    Set.BijOn (fun s => (updateCutFilter c cs s).map CutFilter.enabledCount) Set.univ
      {some 1, some 2, some 3, some 4} ∧
    (∀ s : Slope, (updateCutFilter c cs s).map CutFilter.enabledCount = some (s.toNat + 1)) ∧
    (∀ s : Slope, s.toNat + 1 = cutOrder s / 2) := by
  obtain ⟨a, t, rfl⟩ := List.exists_cons_of_ne_nil h
  have hcount : ∀ s : Slope,
      (updateCutFilter c (a :: t) s).map CutFilter.enabledCount = some (s.toNat + 1) := by
    intro s
    rw [updateCutFilter_cons]
    cases s <;> simp [enabledCount_eq, Slope.toNat]
  refine ⟨?_, rfl, rfl, rfl, rfl, ⟨?_, ?_, ?_⟩, ⟨?_, ?_, ?_⟩, hcount, ?_⟩
  · intro s
    cases s <;> simp
  · intro s _
    cases s <;> simp [cutOrder, Slope.toNat]
  · intro s1 _ s2 _ h12
    cases s1 <;> cases s2 <;> simp [cutOrder, Slope.toNat] at h12 ⊢
  · intro n hn
    simp only [Set.mem_insert_iff, Set.mem_singleton_iff] at hn
    rcases hn with rfl | rfl | rfl | rfl
    · exact ⟨Slope.Slope_12, trivial, rfl⟩
    · exact ⟨Slope.Slope_24, trivial, rfl⟩
    · exact ⟨Slope.Slope_36, trivial, rfl⟩
    · exact ⟨Slope.Slope_48, trivial, rfl⟩
  · intro s _
    show (updateCutFilter c (a :: t) s).map CutFilter.enabledCount ∈ _
    rw [hcount s]
    cases s <;> simp [Slope.toNat]
  · intro s1 _ s2 _ h12
    have h12b : (updateCutFilter c (a :: t) s1).map CutFilter.enabledCount =
        (updateCutFilter c (a :: t) s2).map CutFilter.enabledCount := h12
    rw [hcount s1, hcount s2] at h12b
    cases s1 <;> cases s2 <;> simp [Slope.toNat] at h12b ⊢
  · intro n hn
    simp only [Set.mem_insert_iff, Set.mem_singleton_iff] at hn
    rcases hn with rfl | rfl | rfl | rfl
    · exact ⟨Slope.Slope_12, trivial, hcount _⟩
    · exact ⟨Slope.Slope_24, trivial, hcount _⟩
    · exact ⟨Slope.Slope_36, trivial, hcount _⟩
    · exact ⟨Slope.Slope_48, trivial, hcount _⟩
  · intro s
    cases s <;> simp [cutOrder, Slope.toNat]

/-- Witness of C7 on the sample chain and a one-section array. -/
theorem slope_order_count_bijective_witness :
    ([7] : List Nat) ≠ [] ∧
    ((∀ s : Slope, s = Slope.Slope_12 ∨ s = Slope.Slope_24 ∨ s = Slope.Slope_36 ∨
      s = Slope.Slope_48) ∧
    Slope.Slope_12.toNat = 0 ∧ Slope.Slope_24.toNat = 1 ∧ Slope.Slope_36.toNat = 2 ∧
    Slope.Slope_48.toNat = 3 ∧
    Set.BijOn cutOrder Set.univ {2, 4, 6, 8} ∧
    Set.BijOn (fun s => (updateCutFilter sampleChain [7] s).map CutFilter.enabledCount)
      Set.univ {some 1, some 2, some 3, some 4} ∧
    (∀ s : Slope,
      (updateCutFilter sampleChain [7] s).map CutFilter.enabledCount = some (s.toNat + 1)) ∧
    (∀ s : Slope, s.toNat + 1 = cutOrder s / 2)) :=
  ⟨by decide, slope_order_count_bijective sampleChain [7] (by decide)⟩

/-! ## Index safety -/

/-- C10: the update depends on the coefficient array through its element 0 only, for every
slope; the order of every slope is one of 2, 4, 6, 8, so an array of length order / 2 has at
least one element and the update returns on it; and the update fails exactly on the empty
array. -/
theorem updateCutFilter_index_safe (c : CutFilter Coef St) (cs : List Coef) (s : Slope) :
    (∀ cs2 : List Coef, cs2[0]? = cs[0]? → updateCutFilter c cs2 s = updateCutFilter c cs s) ∧
    cutOrder s ∈ ({2, 4, 6, 8} : Set Nat) ∧
    (cs.length = cutOrder s / 2 →
      1 ≤ cs.length ∧ ∃ c2, updateCutFilter c cs s = some c2) ∧
    (updateCutFilter c cs s = none ↔ cs = []) := by
  refine ⟨?_, ?_, ?_, updateCutFilter_eq_none_iff c cs s⟩
  · intro cs2 h2
    cases cs with
    | nil =>
      cases cs2 with
      | nil => rfl
      | cons b u => simp at h2
    | cons a t =>
      cases cs2 with
      | nil => simp at h2
      | cons b u =>
        simp at h2
        subst h2
        rw [updateCutFilter_cons, updateCutFilter_cons]
  · cases s <;> simp [cutOrder, Slope.toNat]
  · intro hlen
    have hpos : 1 ≤ cs.length := by
      rw [hlen]
      cases s <;> simp [cutOrder, Slope.toNat]
    refine ⟨hpos, ?_⟩
    cases cs with
    | nil => simp at hpos
    | cons a t => exact ⟨_, updateCutFilter_cons c a t s⟩

/-- Witness of C10: an array of three sections for Slope_36, whose order is 6. -/
theorem updateCutFilter_index_safe_witness :
    ([7, 8, 9] : List Nat).length = cutOrder Slope.Slope_36 / 2 ∧
    1 ≤ ([7, 8, 9] : List Nat).length ∧
    ∃ c2, updateCutFilter sampleChain [7, 8, 9] Slope.Slope_36 = some c2 :=
  ⟨by decide,
    (updateCutFilter_index_safe sampleChain [7, 8, 9] Slope.Slope_36).2.2.1 (by decide)⟩

/-! ## Settings snapshot -/

end SimpleEQ
